import Mathlib

/-!
Shallow embedding of `src/simulation.py` (a top-down evacuation drill
simulator) and proofs of the specification claims about it.

Modelling conventions:
* Python floats are modelled as real numbers (`ℝ`).
* Python ints are modelled as `ℤ` (or `ℕ` for counters).
* `pygame.Rect` stores integer fields; constructing one from float
  arguments truncates each coordinate toward zero (`pyInt`).
* `pygame.Rect.colliderect` uses strict-inequality (half-open) overlap:
  touching edges do not collide, and zero-sized rects never collide.
* The simpy machinery (`env.process`, `timeout`) is flattened: the fire's
  spread behaviour becomes an explicit step function whose random draws
  (`random.choice` over `cells`, `random.randint(-50, 50)` offsets) are
  parameters, and `ignite`'s `env.process(self.spread())` call is recorded
  as a counter of started spread processes.
-/

namespace EvacSim

/-! ### Config constants (simulation.py lines 7-17) -/

def WIDTH : ℤ := 1200
def HEIGHT : ℤ := 650
def SIM_WIDTH : ℤ := 900

noncomputable def BASE_SPEED : ℝ := 1.1
noncomputable def PANIC_MULT : ℝ := 1.8
noncomputable def SMOKE_RADIUS : ℝ := 90

noncomputable def EXIT_POSITIONS : List (ℝ × ℝ) := [(850, 120), (850, 530)]

/-! ### Geometry -/

/-- Embeds `pygame.Rect`: axis-aligned rectangle with integer fields. -/
structure Rect where
  x : ℤ
  y : ℤ
  w : ℤ
  h : ℤ
  deriving DecidableEq, Repr

/-- The obstacle walls (simulation.py lines 19-23). -/
def WALLS : List Rect := [⟨250, 0, 30, 450⟩, ⟨500, 200, 30, 450⟩, ⟨100, 350, 200, 30⟩]

/-- Embeds `pygame.Rect.colliderect`: strict-inequality overlap test; rects of zero
width or height never collide. -/
def Rect.colliderect (a b : Rect) : Bool :=
  !(a.w == 0) && !(a.h == 0) && !(b.w == 0) && !(b.h == 0) &&
    decide (a.x < b.x + b.w) && decide (a.y < b.y + b.h) &&
    decide (b.x < a.x + a.w) && decide (b.y < a.y + a.h)

/-- Embeds `dist`: `math.hypot(a[0]-b[0], a[1]-b[1])` (simulation.py lines 27-28). -/
noncomputable def dist (a b : ℝ × ℝ) : ℝ :=
  Real.sqrt ((a.1 - b.1) ^ 2 + (a.2 - b.2) ^ 2)

/-- Conversion of a float to a `pygame.Rect` integer field: truncation
toward zero. -/
noncomputable def pyInt (r : ℝ) : ℤ :=
  if r < 0 then ⌈r⌉ else ⌊r⌋

/-- Embeds `pygame.Rect(nx-5, ny-5, 10, 10)`: the 10x10 bounding box the agent
update builds around a position (simulation.py line 95). -/
noncomputable def mkRect (nx ny : ℝ) : Rect :=
  ⟨pyInt (nx - 5), pyInt (ny - 5), 10, 10⟩

/-! ### Fire (simulation.py lines 47-64, 139-149)

`FireState.spreads` counts how many spread processes have been started via
`env.process(self.spread())`; it is part of the observable scheduling state. -/

structure FireState where
  active : Bool
  cells : List (ℤ × ℤ)
  spreads : ℕ
  deriving DecidableEq, Repr

/-- Embeds `Fire.__init__`: created inert with no cells (also the state of the fresh
fire built by `reset`). -/
def initFire : FireState := ⟨false, [], 0⟩

/-- Embeds `Fire.ignite(x, y)` (simulation.py lines 53-56): unconditionally sets
`active`, appends `(x, y)`, and starts another spread process. -/
def FireState.ignite (s : FireState) (x y : ℤ) : FireState :=
  { active := true, cells := s.cells ++ [(x, y)], spreads := s.spreads + 1 }

/-- One iteration of the body of `Fire.spread` (simulation.py lines 61-64),
with the randomly chosen cell `c` and the two `random.randint(-50, 50)`
draws `ox`, `oy` passed as parameters. -/
def FireState.spreadStep (s : FireState) (c : ℤ × ℤ) (ox oy : ℤ) : FireState :=
  let nx := max 50 (min (SIM_WIDTH - 50) (c.1 + ox))
  let ny := max 50 (min (HEIGHT - 50) (c.2 + oy))
  { s with cells := s.cells ++ [(nx, ny)] }

/-- Embeds `start_fire` (simulation.py lines 139-141): ignite at (450, 300) only if
not already active. -/
def start_fire (s : FireState) : FireState :=
  if s.active then s else s.ignite 450 300

/-- An abstract operation on the fire, with all random draws explicit.
`spread` carries the index of the cell chosen by `random.choice` (reduced
modulo the current length) and the two offset draws. -/
inductive FireOp where
  | igniteOp (x y : ℤ)
  | spreadOp (k : ℕ) (ox oy : ℤ)
  deriving DecidableEq, Repr

/-- Apply one fire operation.  The spread body only runs while `active`
(the `while self.active` guard of `Fire.spread`), and `random.choice`
requires a non-empty cell list. -/
def applyFireOp (s : FireState) : FireOp → FireState
  | .igniteOp x y => s.ignite x y
  | .spreadOp k ox oy =>
      if s.active ∧ s.cells ≠ [] then
        s.spreadStep (s.cells.getD (k % s.cells.length) (0, 0)) ox oy
      else s

/-- Run a sequence of fire operations. -/
def runFire (s : FireState) (ops : List FireOp) : FireState :=
  ops.foldl applyFireOp s

/-! ### Person (simulation.py lines 66-103)

The agent's mutable fields.  `speed` is the base speed drawn once at
construction (`BASE_SPEED * random.uniform(0.8, 1.2)`); `panic` starts at 0
and `evacuated` at `false`. -/

structure PersonState where
  x : ℝ
  y : ℝ
  speed : ℝ
  panic : ℝ
  evacuated : Bool

/-- The panic accumulation for one fire cell (body of the loop at
simulation.py lines 83-85): `self.panic = min(1, self.panic + 0.025)` when
the cell is within `SMOKE_RADIUS` of the agent's position. -/
noncomputable def panicStep (pos : ℝ × ℝ) (p : ℝ) (cell : ℝ × ℝ) : ℝ :=
  if dist pos cell < SMOKE_RADIUS then min 1 (p + 0.025) else p

/-- The panic value after the whole `for fx, fy in fire_cells` loop.  The
agent's position does not change during the loop. -/
noncomputable def panicAfter (pos : ℝ × ℝ) (p : ℝ) (fire_cells : List (ℝ × ℝ)) : ℝ :=
  fire_cells.foldl (panicStep pos) p

/-- Embeds `min(EXIT_POSITIONS, key=...)` over a non-empty list `e :: rest`:
Python's `min` keeps the earliest element achieving the minimum key, i.e.
it replaces the current best only on a strictly smaller key. -/
noncomputable def minByDist (pos : ℝ × ℝ) (e : ℝ × ℝ) : List (ℝ × ℝ) → ℝ × ℝ
  | [] => e
  | f :: rest => if dist pos f < dist pos e then minByDist pos f rest else minByDist pos e rest

/-- The nearest exit (simulation.py line 89).  Python's `min` raises on an
empty list; the `(0, 0)` default is never reached for the source's
configuration (two exits) and theorems assume a non-empty exit list. -/
noncomputable def nearestExit (pos : ℝ × ℝ) (exits : List (ℝ × ℝ)) : ℝ × ℝ :=
  match exits with
  | [] => (0, 0)
  | e :: rest => minByDist pos e rest

/-- The candidate next position (simulation.py lines 87-94), given the
panic value `p` already updated by the fire-cell loop:
effective speed `self.speed * (1 + p * PANIC_MULT)`, unit direction toward
the nearest exit with `math.hypot(dx, dy) or 1` guarding the zero-length
case. -/
noncomputable def candidate (exits : List (ℝ × ℝ)) (s : PersonState) (p : ℝ) : ℝ × ℝ :=
  let speed := s.speed * (1 + p * PANIC_MULT)
  let e := nearestExit (s.x, s.y) exits
  let dx := e.1 - s.x
  let dy := e.2 - s.y
  let d0 := Real.sqrt (dx ^ 2 + dy ^ 2)
  let d := if d0 = 0 then 1 else d0
  (s.x + speed * dx / d, s.y + speed * dy / d)

/-- Embeds `Person.update(fire_cells, alarm_on)` (simulation.py lines 79-103),
with the globals `EXIT_POSITIONS` and `WALLS` lifted to the parameters
`exits` and `walls`. -/
noncomputable def update (exits : List (ℝ × ℝ)) (walls : List Rect)
    (s : PersonState) (fire_cells : List (ℝ × ℝ)) (alarm_on : Bool) : PersonState :=
  if !alarm_on || s.evacuated then s
  else
    let p := panicAfter (s.x, s.y) s.panic fire_cells
    let c := candidate exits s p
    if walls.any fun w => w.colliderect (mkRect c.1 c.2) then
      { s with panic := p }
    else
      let e := nearestExit (s.x, s.y) exits
      if dist c e < 12 then
        { s with x := c.1, y := c.2, panic := p, evacuated := true }
      else
        { s with x := c.1, y := c.2, panic := p }

/-- One external tick's input to a single agent: the fire-cell snapshot and
the alarm flag. -/
structure TickInput where
  fire_cells : List (ℝ × ℝ)
  alarm_on : Bool

/-- Repeatedly apply `update` for a sequence of ticks. -/
noncomputable def run (exits : List (ℝ × ℝ)) (walls : List Rect)
    (s : PersonState) (ticks : List TickInput) : PersonState :=
  ticks.foldl (fun st t => update exits walls st t.fire_cells t.alarm_on) s

/-- The range from which an agent's initial position is drawn
(simulation.py lines 130-131): `random.randint(50, 700)` horizontally and
`random.randint(50, 600)` vertically, both bounds inclusive. -/
def initPosRange (x y : ℤ) : Prop :=
  50 ≤ x ∧ x ≤ 700 ∧ 50 ≤ y ∧ y ≤ 600

/-! ## Theorems -/

/-! ### Fire: ignite idempotence (claim C2) -/

/-- C2 counterexample: `Fire.ignite` is not a no-op on an already-active
fire.  Starting from the active state reached by `ignite(450, 300)`, a
second `ignite(450, 300)` changes the observable state: it appends a
duplicate cell (and schedules another spread process). -/
theorem C2_ignite_active_not_noop :
    (initFire.ignite 450 300).active = true ∧
      (initFire.ignite 450 300).ignite 450 300 ≠ initFire.ignite 450 300 := by
  decide

/-- C2 (amended): the hazard-start operation `start_fire` is idempotent —
it is a no-op whenever the fire is already active, so calling it twice
leaves the observable state identical to calling it once.  The raw
`Fire.ignite` method itself is not guarded and is not a no-op. -/
theorem C2_start_fire_idempotent (s : FireState) :
    (s.active = true → start_fire s = s) ∧
      start_fire (start_fire s) = start_fire s := by
  constructor
  · intro h
    simp [start_fire, h]
  · cases hs : s.active <;>
      simp [start_fire, hs, FireState.ignite]

/-- C2 witness: the idempotence applied to the concrete active state after
one ignition. -/
theorem C2_start_fire_idempotent_witness :
    start_fire (initFire.ignite 450 300) = initFire.ignite 450 300 :=
  (C2_start_fire_idempotent (initFire.ignite 450 300)).1 (by decide)

/-! ### Fire: spread step (claim C8) -/

/-- C8: a spread step perturbing a cell of the current sequence by offsets
in [-50, 50] appends exactly one cell, whose x-coordinate lies in
[50, SIM_WIDTH - 50] and whose y-coordinate lies within the arena's
vertical bounds (indeed within [50, HEIGHT - 50]). -/
theorem C8_spread_appends_clamped (s : FireState) (c : ℤ × ℤ) (ox oy : ℤ)
    (_hc : c ∈ s.cells) (_hox : -50 ≤ ox ∧ ox ≤ 50) (_hoy : -50 ≤ oy ∧ oy ≤ 50) :
    ∃ q : ℤ × ℤ, (s.spreadStep c ox oy).cells = s.cells ++ [q] ∧
      50 ≤ q.1 ∧ q.1 ≤ SIM_WIDTH - 50 ∧ 0 ≤ q.2 ∧ q.2 ≤ HEIGHT ∧
      50 ≤ q.2 ∧ q.2 ≤ HEIGHT - 50 := by
  refine ⟨_, rfl, ?_, ?_, ?_, ?_, ?_, ?_⟩ <;>
    · simp only [SIM_WIDTH, HEIGHT]
      omega

/-- C8 witness: the spread-step theorem at a concrete state and draws. -/
theorem C8_spread_appends_clamped_witness :
    ∃ q : ℤ × ℤ,
      ((initFire.ignite 450 300).spreadStep (450, 300) 10 (-20)).cells =
        (initFire.ignite 450 300).cells ++ [q] ∧
      50 ≤ q.1 ∧ q.1 ≤ SIM_WIDTH - 50 ∧ 0 ≤ q.2 ∧ q.2 ≤ HEIGHT ∧
      50 ≤ q.2 ∧ q.2 ≤ HEIGHT - 50 :=
  C8_spread_appends_clamped (initFire.ignite 450 300) (450, 300) 10 (-20)
    (by decide) (by decide) (by decide)

/-! ### Fire: reachable-state invariants (claim C9) -/

/-- Every fire operation extends the cell list (cells are appended, never
removed). -/
theorem applyFireOp_cells_extend (s : FireState) (op : FireOp) :
    ∃ t, (applyFireOp s op).cells = s.cells ++ t := by
  cases op with
  | igniteOp x y => exact ⟨[(x, y)], rfl⟩
  | spreadOp k ox oy =>
      simp only [applyFireOp]
      split_ifs with h
      · exact ⟨_, rfl⟩
      · exact ⟨[], by simp⟩

/-- No fire operation deactivates an active fire. -/
theorem applyFireOp_active (s : FireState) (op : FireOp) (h : s.active = true) :
    (applyFireOp s op).active = true := by
  cases op with
  | igniteOp x y => rfl
  | spreadOp k ox oy =>
      simp only [applyFireOp]
      split_ifs <;> exact h

/-- Every fire operation preserves the invariant that an active fire has a
non-empty cell list. -/
theorem applyFireOp_inv (s : FireState) (op : FireOp)
    (h : s.active = true → s.cells ≠ []) :
    (applyFireOp s op).active = true → (applyFireOp s op).cells ≠ [] := by
  cases op with
  | igniteOp x y =>
      intro _
      simp [applyFireOp, FireState.ignite]
  | spreadOp k ox oy =>
      simp only [applyFireOp]
      split_ifs with hc
      · intro _
        simp [FireState.spreadStep]
      · exact h

/-- Running any operation sequence extends the cell list. -/
theorem runFire_cells_extend (s : FireState) (ops : List FireOp) :
    ∃ t, (runFire s ops).cells = s.cells ++ t := by
  induction ops generalizing s with
  | nil => exact ⟨[], by simp [runFire]⟩
  | cons op rest ih =>
      obtain ⟨t₁, h₁⟩ := applyFireOp_cells_extend s op
      obtain ⟨t₂, h₂⟩ := ih (applyFireOp s op)
      exact ⟨t₁ ++ t₂, by simp [runFire] at h₂ ⊢; rw [h₂, h₁, List.append_assoc]⟩

/-- Running any operation sequence keeps an active fire active. -/
theorem runFire_active (s : FireState) (ops : List FireOp) (h : s.active = true) :
    (runFire s ops).active = true := by
  induction ops generalizing s with
  | nil => exact h
  | cons op rest ih => exact ih (applyFireOp s op) (applyFireOp_active s op h)

/-- The active-implies-nonempty invariant holds of every state reachable
from a state satisfying it. -/
theorem runFire_inv (s : FireState) (ops : List FireOp)
    (h : s.active = true → s.cells ≠ []) :
    (runFire s ops).active = true → (runFire s ops).cells ≠ [] := by
  induction ops generalizing s with
  | nil => exact h
  | cons op rest ih => exact ih (applyFireOp s op) (applyFireOp_inv s op h)

/-- C9: for every hazard state reachable from the inert initial state, if
`active` is true then `cells` is non-empty; and under any further operation
sequence `active` stays true, the cell list is only extended (never
shrunk, so its length is non-decreasing), and stays non-empty. -/
theorem C9_active_invariants (ops more : List FireOp)
    (h : (runFire initFire ops).active = true) :
    (runFire initFire ops).cells ≠ [] ∧
      (runFire (runFire initFire ops) more).active = true ∧
      (∃ t, (runFire (runFire initFire ops) more).cells =
        (runFire initFire ops).cells ++ t) ∧
      (runFire (runFire initFire ops) more).cells ≠ [] := by
  have hne : (runFire initFire ops).cells ≠ [] :=
    runFire_inv initFire ops (by simp [initFire]) h
  obtain ⟨t, ht⟩ := runFire_cells_extend (runFire initFire ops) more
  refine ⟨hne, runFire_active _ more h, ⟨t, ht⟩, ?_⟩
  rw [ht]
  simp [hne]

/-- C9 witness: the invariants at the concrete state reached by igniting at
(450, 300), followed by one spread step. -/
theorem C9_active_invariants_witness :
    (runFire initFire [.igniteOp 450 300]).cells ≠ [] ∧
      (runFire (runFire initFire [.igniteOp 450 300]) [.spreadOp 0 10 10]).active = true ∧
      (∃ t, (runFire (runFire initFire [.igniteOp 450 300]) [.spreadOp 0 10 10]).cells =
        (runFire initFire [.igniteOp 450 300]).cells ++ t) ∧
      (runFire (runFire initFire [.igniteOp 450 300]) [.spreadOp 0 10 10]).cells ≠ [] :=
  C9_active_invariants [.igniteOp 450 300] [.spreadOp 0 10 10] (by decide)

/-! ### Person: evacuated is terminal and update is then a no-op (claim C4) -/

/-- Update on an evacuated agent returns immediately with no state change. -/
theorem update_evacuated_noop (exits : List (ℝ × ℝ)) (walls : List Rect)
    (s : PersonState) (fire_cells : List (ℝ × ℝ)) (alarm_on : Bool)
    (h : s.evacuated = true) :
    update exits walls s fire_cells alarm_on = s := by
  simp [update, h]

/-- C4: once `evacuated` is true, any sequence of further update calls is a
complete no-op — position, panic and the flag itself are all unchanged, so
`evacuated` in particular stays true. -/
theorem C4_evacuated_terminal_noop (exits : List (ℝ × ℝ)) (walls : List Rect)
    (s : PersonState) (ticks : List TickInput) (h : s.evacuated = true) :
    run exits walls s ticks = s ∧ (run exits walls s ticks).evacuated = true := by
  have hrun : run exits walls s ticks = s := by
    induction ticks generalizing s with
    | nil => rfl
    | cons t rest ih =>
        show run exits walls (update exits walls s t.fire_cells t.alarm_on) rest = s
        rw [update_evacuated_noop exits walls s t.fire_cells t.alarm_on h]
        exact ih s h
  exact ⟨hrun, by rw [hrun]; exact h⟩

/-- C4 witness: an evacuated agent at (850, 120) is untouched by a tick with
the alarm on and a nearby fire cell. -/
theorem C4_evacuated_terminal_noop_witness :
    run EXIT_POSITIONS WALLS ⟨850, 120, 1, 0, true⟩ [⟨[(850, 120)], true⟩] =
        (⟨850, 120, 1, 0, true⟩ : PersonState) ∧
      (run EXIT_POSITIONS WALLS ⟨850, 120, 1, 0, true⟩ [⟨[(850, 120)], true⟩]).evacuated = true :=
  C4_evacuated_terminal_noop EXIT_POSITIONS WALLS ⟨850, 120, 1, 0, true⟩
    [⟨[(850, 120)], true⟩] rfl

/-! ### Person: alarm off means no state change (claim C5) -/

/-- Update with the alarm off returns immediately with no state change. -/
theorem update_alarm_off_noop (exits : List (ℝ × ℝ)) (walls : List Rect)
    (s : PersonState) (fire_cells : List (ℝ × ℝ)) :
    update exits walls s fire_cells false = s := by
  simp [update]

/-- C5: with the alarm off on every tick, any number of ticks leaves every
agent field (position, panic, evacuated) exactly unchanged. -/
theorem C5_alarm_off_frame (exits : List (ℝ × ℝ)) (walls : List Rect)
    (s : PersonState) (ticks : List TickInput)
    (h : ∀ t ∈ ticks, t.alarm_on = false) :
    run exits walls s ticks = s := by
  induction ticks generalizing s with
  | nil => rfl
  | cons t rest ih =>
      show run exits walls (update exits walls s t.fire_cells t.alarm_on) rest = s
      rw [h t (List.mem_cons_self t rest), update_alarm_off_noop]
      exact ih s fun u hu => h u (List.mem_cons_of_mem t hu)

/-- C5 witness: three alarm-off ticks (with fire cells present) leave a
non-evacuated agent unchanged. -/
theorem C5_alarm_off_frame_witness :
    run EXIT_POSITIONS WALLS ⟨100, 100, 1, 0, false⟩
        [⟨[(100, 100)], false⟩, ⟨[], false⟩, ⟨[(120, 100)], false⟩] =
      (⟨100, 100, 1, 0, false⟩ : PersonState) :=
  C5_alarm_off_frame EXIT_POSITIONS WALLS ⟨100, 100, 1, 0, false⟩
    [⟨[(100, 100)], false⟩, ⟨[], false⟩, ⟨[(120, 100)], false⟩]
    (by intro t ht; simp at ht; rcases ht with h | h | h <;> simp [h])

/-! ### Evaluation helpers for concrete scenarios -/

/-- Evaluate `pyInt` on a non-negative real pinned between consecutive
integers. -/
theorem pyInt_eq_of (r : ℝ) (n : ℤ) (h0 : 0 ≤ r) (h1 : (n : ℝ) ≤ r) (h2 : r < n + 1) :
    pyInt r = n := by
  unfold pyInt
  rw [if_neg (not_lt.mpr h0)]
  exact Int.floor_eq_iff.mpr ⟨h1, h2⟩

/-- Evaluate `mkRect` at a position with both shifted coordinates
non-negative and pinned between consecutive integers. -/
theorem mkRect_eq_of (x y : ℝ) (a b : ℤ)
    (hx0 : 0 ≤ x - 5) (hx1 : (a : ℝ) ≤ x - 5) (hx2 : x - 5 < a + 1)
    (hy0 : 0 ≤ y - 5) (hy1 : (b : ℝ) ≤ y - 5) (hy2 : y - 5 < b + 1) :
    mkRect x y = ⟨a, b, 10, 10⟩ := by
  unfold mkRect
  rw [pyInt_eq_of (x - 5) a hx0 hx1 hx2, pyInt_eq_of (y - 5) b hy0 hy1 hy2]

/-! ### Person: panic is non-decreasing and stays in [0, 1] (claim C3) -/

/-- One fire cell's panic contribution is monotone and keeps panic in
[0, 1]. -/
theorem panicStep_mono_bounded (pos : ℝ × ℝ) (p : ℝ) (cell : ℝ × ℝ)
    (h0 : 0 ≤ p) (h1 : p ≤ 1) :
    p ≤ panicStep pos p cell ∧ 0 ≤ panicStep pos p cell ∧ panicStep pos p cell ≤ 1 := by
  unfold panicStep
  split_ifs
  · refine ⟨le_min h1 (by linarith), le_min (by norm_num) (by linarith), min_le_left 1 _⟩
  · exact ⟨le_refl p, h0, h1⟩

/-- The whole fire-cell loop is monotone and keeps panic in [0, 1]. -/
theorem panicAfter_mono_bounded (pos : ℝ × ℝ) (p : ℝ) (cells : List (ℝ × ℝ))
    (h0 : 0 ≤ p) (h1 : p ≤ 1) :
    p ≤ panicAfter pos p cells ∧ 0 ≤ panicAfter pos p cells ∧ panicAfter pos p cells ≤ 1 := by
  induction cells generalizing p with
  | nil => exact ⟨le_refl p, h0, h1⟩
  | cons c rest ih =>
      obtain ⟨hle, hlo, hhi⟩ := panicStep_mono_bounded pos p c h0 h1
      obtain ⟨hle', hlo', hhi'⟩ := ih (panicStep pos p c) hlo hhi
      exact ⟨le_trans hle hle', hlo', hhi'⟩

/-- A single update is monotone and bounds-preserving in panic. -/
theorem update_panic_mono_bounded (exits : List (ℝ × ℝ)) (walls : List Rect)
    (s : PersonState) (fire_cells : List (ℝ × ℝ)) (alarm_on : Bool)
    (h0 : 0 ≤ s.panic) (h1 : s.panic ≤ 1) :
    s.panic ≤ (update exits walls s fire_cells alarm_on).panic ∧
      0 ≤ (update exits walls s fire_cells alarm_on).panic ∧
      (update exits walls s fire_cells alarm_on).panic ≤ 1 := by
  obtain ⟨hle, hlo, hhi⟩ :=
    panicAfter_mono_bounded (s.x, s.y) s.panic fire_cells h0 h1
  simp only [update]
  split_ifs <;> first | exact ⟨le_refl _, h0, h1⟩ | exact ⟨hle, hlo, hhi⟩

/-- C3: along any sequence of update calls (arbitrary fire-cell lists and
alarm flags), panic is non-decreasing and stays in [0, 1] whenever it
starts there — in particular from the initial value 0 set at construction,
and step to step from any reachable state. -/
theorem C3_panic_monotone_bounded (exits : List (ℝ × ℝ)) (walls : List Rect)
    (s : PersonState) (ticks : List TickInput)
    (h0 : 0 ≤ s.panic) (h1 : s.panic ≤ 1) :
    s.panic ≤ (run exits walls s ticks).panic ∧
      0 ≤ (run exits walls s ticks).panic ∧ (run exits walls s ticks).panic ≤ 1 := by
  induction ticks generalizing s with
  | nil => exact ⟨le_refl _, h0, h1⟩
  | cons t rest ih =>
      obtain ⟨hle, hlo, hhi⟩ :=
        update_panic_mono_bounded exits walls s t.fire_cells t.alarm_on h0 h1
      obtain ⟨hle', hlo', hhi'⟩ := ih (update exits walls s t.fire_cells t.alarm_on) hlo hhi
      exact ⟨le_trans hle hle', hlo', hhi'⟩

/-- C3 witness: panic monotonicity/bounds for a concrete agent over two
ticks that include a nearby fire cell. -/
theorem C3_panic_monotone_bounded_witness :
    (0 : ℝ) ≤ (run EXIT_POSITIONS WALLS ⟨100, 100, 1, 0, false⟩
        [⟨[(100, 100)], true⟩, ⟨[], false⟩]).panic ∧
      0 ≤ (run EXIT_POSITIONS WALLS ⟨100, 100, 1, 0, false⟩
        [⟨[(100, 100)], true⟩, ⟨[], false⟩]).panic ∧
      (run EXIT_POSITIONS WALLS ⟨100, 100, 1, 0, false⟩
        [⟨[(100, 100)], true⟩, ⟨[], false⟩]).panic ≤ 1 :=
  C3_panic_monotone_bounded EXIT_POSITIONS WALLS ⟨100, 100, 1, 0, false⟩
    [⟨[(100, 100)], true⟩, ⟨[], false⟩] (le_refl 0) (by norm_num)

/-! ### Nearest-exit lemmas -/

/-- Python's keyed `min` returns an element of the scanned list. -/
theorem minByDist_mem (pos e : ℝ × ℝ) (l : List (ℝ × ℝ)) :
    minByDist pos e l ∈ e :: l := by
  induction l generalizing e with
  | nil => simp [minByDist]
  | cons f rest ih =>
      unfold minByDist
      split_ifs
      · exact List.mem_cons_of_mem e (ih f)
      · rcases List.mem_cons.mp (ih e) with h | h
        · rw [h]
          exact List.mem_cons_self e (f :: rest)
        · exact List.mem_cons_of_mem e (List.mem_cons_of_mem f h)

/-- Python's keyed `min` achieves the minimum key over the scanned list. -/
theorem minByDist_le (pos e : ℝ × ℝ) (l : List (ℝ × ℝ)) :
    ∀ q ∈ e :: l, dist pos (minByDist pos e l) ≤ dist pos q := by
  induction l generalizing e with
  | nil =>
      intro q hq
      rw [List.mem_singleton.mp hq]
      exact le_refl _
  | cons f rest ih =>
      intro q hq
      unfold minByDist
      split_ifs with hlt
      · rcases List.mem_cons.mp hq with h | h
        · calc dist pos (minByDist pos f rest) ≤ dist pos f :=
                ih f f (List.mem_cons_self f rest)
            _ ≤ dist pos q := by rw [h]; exact le_of_lt hlt
        · exact ih f q h
      · rcases List.mem_cons.mp hq with h | h
        · exact h ▸ ih e e (List.mem_cons_self e rest)
        · rcases List.mem_cons.mp h with h' | h'
          · calc dist pos (minByDist pos e rest) ≤ dist pos e :=
                  ih e e (List.mem_cons_self e rest)
              _ ≤ dist pos q := by rw [h']; exact not_lt.mp hlt
          · exact ih e q (List.mem_cons_of_mem e h')

/-- The nearest exit is an exit (non-empty exit list). -/
theorem nearestExit_mem (pos : ℝ × ℝ) (exits : List (ℝ × ℝ)) (h : exits ≠ []) :
    nearestExit pos exits ∈ exits := by
  cases exits with
  | nil => exact absurd rfl h
  | cons e rest => exact minByDist_mem pos e rest

/-- The nearest exit minimizes the distance over the exit list. -/
theorem nearestExit_min (pos : ℝ × ℝ) (exits : List (ℝ × ℝ)) :
    ∀ q ∈ exits, dist pos (nearestExit pos exits) ≤ dist pos q := by
  cases exits with
  | nil => intro q hq; exact absurd hq (List.not_mem_nil q)
  | cons e rest => exact minByDist_le pos e rest

/-! ### Person: evacuation only within the arrival radius (claim C7) -/

/-- If an update sets `evacuated`, then the move was committed: the new
position is the candidate and it is within 12 units of the targeted
(old-position-nearest) exit. -/
theorem update_evacuates_cases (exits : List (ℝ × ℝ)) (walls : List Rect)
    (s : PersonState) (fire_cells : List (ℝ × ℝ)) (alarm_on : Bool)
    (hs : s.evacuated = false)
    (hu : (update exits walls s fire_cells alarm_on).evacuated = true) :
    (update exits walls s fire_cells alarm_on).x =
        (candidate exits s (panicAfter (s.x, s.y) s.panic fire_cells)).1 ∧
      (update exits walls s fire_cells alarm_on).y =
        (candidate exits s (panicAfter (s.x, s.y) s.panic fire_cells)).2 ∧
      dist (candidate exits s (panicAfter (s.x, s.y) s.panic fire_cells))
        (nearestExit (s.x, s.y) exits) < 12 := by
  simp only [update] at hu ⊢
  split_ifs at hu ⊢ with h1 h2 h3
  · exact absurd hu (by simp [hs])
  · exact absurd hu (by simp [hs])
  · exact ⟨rfl, rfl, h3⟩
  · exact absurd hu (by simp [hs])

/-- C7: an agent transitions to `evacuated` only at a position whose
distance to its nearest exit is strictly below 12 units; `update` never
sets the flag at distance 12 or more. -/
theorem C7_evacuation_within_radius (exits : List (ℝ × ℝ)) (walls : List Rect)
    (s : PersonState) (fire_cells : List (ℝ × ℝ)) (alarm_on : Bool)
    (hne : exits ≠ [])
    (hs : s.evacuated = false)
    (hu : (update exits walls s fire_cells alarm_on).evacuated = true) :
    dist ((update exits walls s fire_cells alarm_on).x,
        (update exits walls s fire_cells alarm_on).y)
      (nearestExit ((update exits walls s fire_cells alarm_on).x,
        (update exits walls s fire_cells alarm_on).y) exits) < 12 := by
  obtain ⟨hx, hy, hd⟩ := update_evacuates_cases exits walls s fire_cells alarm_on hs hu
  rw [hx, hy]
  calc dist ((candidate exits s (panicAfter (s.x, s.y) s.panic fire_cells)).1,
          (candidate exits s (panicAfter (s.x, s.y) s.panic fire_cells)).2)
        (nearestExit ((candidate exits s (panicAfter (s.x, s.y) s.panic fire_cells)).1,
          (candidate exits s (panicAfter (s.x, s.y) s.panic fire_cells)).2) exits) ≤
      dist ((candidate exits s (panicAfter (s.x, s.y) s.panic fire_cells)).1,
          (candidate exits s (panicAfter (s.x, s.y) s.panic fire_cells)).2)
        (nearestExit (s.x, s.y) exits) :=
        nearestExit_min _ exits _ (nearestExit_mem (s.x, s.y) exits hne)
    _ < 12 := by
        have : ((candidate exits s (panicAfter (s.x, s.y) s.panic fire_cells)).1,
            (candidate exits s (panicAfter (s.x, s.y) s.panic fire_cells)).2) =
              candidate exits s (panicAfter (s.x, s.y) s.panic fire_cells) := rfl
        rw [this]
        exact hd

/-! ### Person: agent already at the exit (claim C6) -/

/-- With a single exit equal to the agent's position, the direction is
zero-length, the `or 1` guard replaces the zero distance by 1, and the
candidate position equals the current position. -/
theorem candidate_self (e : ℝ × ℝ) (s : PersonState) (p : ℝ)
    (hx : s.x = e.1) (hy : s.y = e.2) :
    candidate [e] s p = (s.x, s.y) := by
  simp only [candidate, nearestExit, minByDist]
  rw [hx, hy]
  simp

/-- Update of a non-evacuated agent sitting exactly on the single exit,
alarm on, no fire cells, when its own bounding box hits no wall: the
position is re-committed unchanged and the agent is marked evacuated. -/
theorem update_at_exit (e : ℝ × ℝ) (walls : List Rect) (s : PersonState)
    (hx : s.x = e.1) (hy : s.y = e.2) (he : s.evacuated = false)
    (hw : (walls.any fun w => w.colliderect (mkRect s.x s.y)) = false) :
    update [e] walls s [] true = { s with evacuated := true } := by
  have hc : candidate [e] s s.panic = (s.x, s.y) :=
    candidate_self e s s.panic hx hy
  have hd : dist (s.x, s.y) (nearestExit (s.x, s.y) [e]) = 0 := by
    simp only [nearestExit, minByDist, dist]
    rw [hx, hy]
    simp
  simp only [update, he, panicAfter, List.foldl_nil, hc]
  rw [if_neg (by simp)]
  rw [if_neg (by simp [hw]), if_pos (by rw [hd]; norm_num)]

/-- C6: a non-evacuated agent whose position equals the only exit, with the
alarm on, no hazard cells, and no obstacle intersecting its candidate
bounding box, is marked evacuated by the first update, with its position
(and panic) unchanged — the zero-length direction is absorbed by the
`or 1` guard, so no division by zero occurs. -/
theorem C6_at_exit_evacuates_first_update (e : ℝ × ℝ) (walls : List Rect)
    (s : PersonState) (hx : s.x = e.1) (hy : s.y = e.2) (he : s.evacuated = false)
    (hw : (walls.any fun w => w.colliderect (mkRect s.x s.y)) = false) :
    update [e] walls s [] true = { s with evacuated := true } :=
  update_at_exit e walls s hx hy he hw

/-- The agent bounding box at (850, 120) — the first exit — hits no wall. -/
theorem no_wall_at_first_exit :
    (WALLS.any fun w => w.colliderect (mkRect (850 : ℝ) (120 : ℝ))) = false := by
  rw [mkRect_eq_of (850 : ℝ) (120 : ℝ) 845 115 (by norm_num) (by norm_num) (by norm_num)
    (by norm_num) (by norm_num) (by norm_num)]
  decide

/-- C6 witness: the concrete agent at the exit (850, 120) with the source's
walls evacuates on its first update. -/
theorem C6_at_exit_evacuates_first_update_witness :
    update [((850 : ℝ), (120 : ℝ))] WALLS ⟨850, 120, 1, 0, false⟩ [] true =
      (⟨850, 120, 1, 0, true⟩ : PersonState) :=
  C6_at_exit_evacuates_first_update ((850 : ℝ), (120 : ℝ)) WALLS ⟨850, 120, 1, 0, false⟩
    rfl rfl rfl no_wall_at_first_exit

/-- C7 witness: the arrival-radius bound applied to the concrete at-exit
update, whose `evacuated` hypothesis is discharged by evaluation. -/
theorem C7_evacuation_within_radius_witness :
    dist ((update [((850 : ℝ), (120 : ℝ))] WALLS ⟨850, 120, 1, 0, false⟩ [] true).x,
        (update [((850 : ℝ), (120 : ℝ))] WALLS ⟨850, 120, 1, 0, false⟩ [] true).y)
      (nearestExit ((update [((850 : ℝ), (120 : ℝ))] WALLS ⟨850, 120, 1, 0, false⟩ [] true).x,
        (update [((850 : ℝ), (120 : ℝ))] WALLS ⟨850, 120, 1, 0, false⟩ [] true).y)
        [((850 : ℝ), (120 : ℝ))]) < 12 :=
  C7_evacuation_within_radius [((850 : ℝ), (120 : ℝ))] WALLS ⟨850, 120, 1, 0, false⟩ [] true
    (by simp) rfl
    (by rw [update_at_exit ((850 : ℝ), (120 : ℝ)) WALLS ⟨850, 120, 1, 0, false⟩
      rfl rfl rfl no_wall_at_first_exit])

/-! ### Person: committed positions and obstacle collision (claim C1) -/

/-- C1 counterexample: the initial random draw can place an agent whose
bounding box intersects a wall.  The position (260, 100) lies in the
initial draw range `randint(50, 700) x randint(50, 600)` and its 10x10
bounding box intersects the first wall, so the claimed invariant fails for
initial positions. -/
theorem C1_initial_position_can_collide :
    initPosRange 260 100 ∧
      (WALLS.any fun w => w.colliderect (mkRect (260 : ℝ) (100 : ℝ))) = true := by
  constructor
  · norm_num [initPosRange]
  · rw [mkRect_eq_of (260 : ℝ) (100 : ℝ) 255 95 (by norm_num) (by norm_num) (by norm_num)
      (by norm_num) (by norm_num) (by norm_num)]
    decide

/-- A single update never commits a position whose bounding box hits a
wall: if the pre-state's bounding box is wall-free, so is the
post-state's (the candidate is only committed after passing the wall
check; otherwise the position is unchanged). -/
theorem update_preserves_bbox_free (exits : List (ℝ × ℝ)) (walls : List Rect)
    (s : PersonState) (fire_cells : List (ℝ × ℝ)) (alarm_on : Bool)
    (h : (walls.any fun w => w.colliderect (mkRect s.x s.y)) = false) :
    (walls.any fun w => w.colliderect
      (mkRect (update exits walls s fire_cells alarm_on).x
        (update exits walls s fire_cells alarm_on).y)) = false := by
  simp only [update]
  split_ifs with h1 h2 h3
  · exact h
  · exact h
  · simpa using h2
  · simpa using h2

/-- C1 (amended): along any sequence of update calls, if the starting
position's bounding box intersects no wall, then the position at every
later tick — in particular every position committed by update — has a
wall-free bounding box.  (The unamended claim also asserted this of the
initial random draw, which `C1_initial_position_can_collide` refutes.) -/
theorem C1_committed_bbox_wall_free (exits : List (ℝ × ℝ)) (walls : List Rect)
    (s : PersonState) (ticks : List TickInput)
    (h : (walls.any fun w => w.colliderect (mkRect s.x s.y)) = false) :
    (walls.any fun w => w.colliderect
      (mkRect (run exits walls s ticks).x (run exits walls s ticks).y)) = false := by
  induction ticks generalizing s with
  | nil => exact h
  | cons t rest ih =>
      exact ih (update exits walls s t.fire_cells t.alarm_on)
        (update_preserves_bbox_free exits walls s t.fire_cells t.alarm_on h)

/-- C1 witness: a concrete wall-free agent stays wall-free over a tick with
the alarm on. -/
theorem C1_committed_bbox_wall_free_witness :
    (WALLS.any fun w => w.colliderect
      (mkRect (run EXIT_POSITIONS WALLS ⟨850, 120, 1, 0, false⟩ [⟨[], true⟩]).x
        (run EXIT_POSITIONS WALLS ⟨850, 120, 1, 0, false⟩ [⟨[], true⟩]).y)) = false :=
  C1_committed_bbox_wall_free EXIT_POSITIONS WALLS ⟨850, 120, 1, 0, false⟩ [⟨[], true⟩]
    no_wall_at_first_exit

/-! ### Person: blocked move retains panic, position, evacuated (claim C10) -/

/-- C10: with the alarm on and a non-evacuated agent, if the candidate
position's bounding box intersects some wall, the update keeps the
position and the (false) evacuated flag unchanged — evacuated is not set
that tick even if the current position is within the arrival radius — and
retains exactly the panic accrued from the fire-cell loop. -/
theorem C10_blocked_move_frame (exits : List (ℝ × ℝ)) (walls : List Rect)
    (s : PersonState) (fire_cells : List (ℝ × ℝ))
    (he : s.evacuated = false)
    (hb : (walls.any fun w => w.colliderect
        (mkRect (candidate exits s (panicAfter (s.x, s.y) s.panic fire_cells)).1
          (candidate exits s (panicAfter (s.x, s.y) s.panic fire_cells)).2)) = true) :
    update exits walls s fire_cells true =
      { s with panic := panicAfter (s.x, s.y) s.panic fire_cells } := by
  simp only [update, he]
  rw [if_neg (by simp), if_pos hb]

/-- The candidate position of the blocked scenario: an agent at (246, 120)
with unit base speed and no panic heads for the exit (850, 120), one unit
to the right, giving candidate (247, 120). -/
theorem candidate_blocked_eval :
    candidate [((850 : ℝ), (120 : ℝ))] ⟨246, 120, 1, 0, false⟩ 0 = (247, 120) := by
  have h604 : Real.sqrt (((850 : ℝ) - 246) ^ 2 + ((120 : ℝ) - 120) ^ 2) = 604 := by
    rw [show ((850 : ℝ) - 246) ^ 2 + ((120 : ℝ) - 120) ^ 2 = 604 ^ 2 by norm_num]
    exact Real.sqrt_sq (by norm_num)
  simp only [candidate, nearestExit, minByDist]
  rw [h604, if_neg (by norm_num)]
  norm_num

/-- The 10x10 bounding box around the candidate (247, 120) hits the first
wall. -/
theorem blocked_rect_collides :
    (WALLS.any fun w => w.colliderect (mkRect (247 : ℝ) (120 : ℝ))) = true := by
  rw [mkRect_eq_of (247 : ℝ) (120 : ℝ) 242 115 (by norm_num) (by norm_num) (by norm_num)
    (by norm_num) (by norm_num) (by norm_num)]
  decide

/-- C10 witness: the agent at (246, 120) one unit short of the first wall
is blocked and completely unchanged (no fire cells, so the retained panic
accrual is zero). -/
theorem C10_blocked_move_frame_witness :
    update [((850 : ℝ), (120 : ℝ))] WALLS ⟨246, 120, 1, 0, false⟩ [] true =
      (⟨246, 120, 1, 0, false⟩ : PersonState) :=
  C10_blocked_move_frame [((850 : ℝ), (120 : ℝ))] WALLS ⟨246, 120, 1, 0, false⟩ [] rfl
    (by
      have hc : candidate [((850 : ℝ), (120 : ℝ))] ⟨246, 120, 1, 0, false⟩
          (panicAfter ((246 : ℝ), (120 : ℝ)) 0 []) = (247, 120) := candidate_blocked_eval
      rw [hc]
      exact blocked_rect_collides)

end EvacSim
